import Mathlib

/-!
# Verification of `unified_planning/grpc/proto_reader.py`

A shallow embedding of the protobuf-to-model reader of this repository and
proofs about it.  Python functions become Lean functions; the single piece of
mutable converter state (`ProtobufReader.current_action`) becomes explicit
state passing; fallible Python code (exceptions such as `ValueError`,
`KeyError`, `AssertionError`, lookup errors) becomes `Except String`.

External collaborators (the protobuf schema, the dispatching `Converter`
base class, and the `unified_planning.model` classes) are not under `src/`;
where their behaviour decides a statement they are modelled from the spec
and marked `Modelled from the spec:` in their doc comment.
-/

namespace ProtoReader

/-! ## Python string primitives

Python's `str.split`, `in`, `startswith`, `int(...)` and
`fractions.Fraction(...)` modelled over `List Char` with structural (fuel
based) recursion so every definition evaluates by kernel reduction. -/

/-- `startsWithL big pre` is true when `pre` is an initial segment of `big`
(Python `str.startswith` on the underlying characters). -/
def startsWithL : List Char → List Char → Bool
  | _, [] => true
  | [], _ :: _ => false
  | c :: cs, d :: ds => c == d && startsWithL cs ds

/-- Substring containment, Python's `pat in s` for non-empty `pat`. -/
def containsL : List Char → List Char → Bool
  | [], pat => startsWithL [] pat
  | c :: cs, pat => startsWithL (c :: cs) pat || containsL cs pat

/-- Fuel-driven worker for Python `str.split(sep)` with non-empty `sep`:
scan left to right, cutting at each (leftmost, non-overlapping) occurrence
of `sep`.  The fuel is an upper bound on the number of characters scanned,
so with fuel `≥ length + 1` the fuel never runs out. -/
def splitFuel (sep : List Char) : Nat → List Char → List Char → List (List Char)
  | 0, _, cur => [cur.reverse]
  | _ + 1, [], cur => [cur.reverse]
  | n + 1, c :: cs, cur =>
    if sep ≠ [] && startsWithL (c :: cs) sep then
      cur.reverse :: splitFuel sep n (List.drop (sep.length - 1) cs) []
    else
      splitFuel sep n cs (c :: cur)

/-- Python `s.split(sep)` for a non-empty separator. -/
def pySplit (s sep : String) : List String :=
  (splitFuel sep.data (s.data.length + 1) s.data []).map List.asString

/-- Python `pat in s` (substring containment). -/
def pyContains (s pat : String) : Bool :=
  containsL s.data pat.data

/-- Python `s.startswith(pre)`. -/
def pyStartsWith (s pre : String) : Bool :=
  startsWithL s.data pre.data

/-- Python list indexing `l[i]`: `IndexError` when out of range. -/
def pyIndex (l : List String) (i : Nat) : Except String String :=
  match l.get? i with
  | some x => .ok x
  | none => .error "IndexError: list index out of range"

/-- Decimal digit value of a character, `none` for non-digits. -/
def digitVal (c : Char) : Option Nat :=
  if '0' ≤ c && c ≤ '9' then some (c.toNat - '0'.toNat) else none

/-- Parse a non-empty all-digit character list as a natural number. -/
def parseDigitsAux : List Char → Nat → Option Nat
  | [], acc => some acc
  | c :: cs, acc =>
    match digitVal c with
    | some d => parseDigitsAux cs (acc * 10 + d)
    | none => none

/-- Parse a non-empty digit string into a `Nat`. -/
def parseDigits (cs : List Char) : Option Nat :=
  match cs with
  | [] => none
  | _ => parseDigitsAux cs 0

/-- Strip leading spaces (Python's numeric constructors ignore surrounding
whitespace; only the space character is exercised here). -/
def stripLeadingSpaces : List Char → List Char
  | ' ' :: cs => stripLeadingSpaces cs
  | cs => cs

/-- Strip surrounding spaces. -/
def stripSpaces (cs : List Char) : List Char :=
  (stripLeadingSpaces (stripLeadingSpaces cs.reverse).reverse)

/-- Python `int(s)` on a decimal literal with optional sign and surrounding
whitespace: `ValueError` otherwise.  (Underscores and non-decimal bases are
not exercised by this repository and are not modelled.) -/
def pyInt (s : String) : Except String Int :=
  match stripSpaces s.data with
  | '-' :: rest =>
    match parseDigits rest with
    | some n => .ok (-(n : Int))
    | none => .error "ValueError: invalid literal for int()"
  | '+' :: rest =>
    match parseDigits rest with
    | some n => .ok (n : Int)
    | none => .error "ValueError: invalid literal for int()"
  | cs =>
    match parseDigits cs with
    | some n => .ok (n : Int)
    | none => .error "ValueError: invalid literal for int()"

/-! ## Exact rationals (Python `fractions.Fraction`)

Modelled with an explicit numerator/denominator pair normalised by a
fuel-based Euclidean gcd, so values reduce in the kernel. -/

/-- Euclid's algorithm with explicit fuel (structural recursion). -/
def gcdFuel : Nat → Nat → Nat → Nat
  | 0, m, _ => m
  | _ + 1, 0, n => n
  | f + 1, m + 1, n => gcdFuel f (n % (m + 1)) (m + 1)

/-- Greatest common divisor via `gcdFuel` with sufficient fuel. -/
def natGcd (m n : Nat) : Nat := gcdFuel (m + n + 1) m n

/-- An exact rational: Python's `fractions.Fraction` value.  Kept in the
normalised form `Fraction` itself maintains (positive denominator, reduced). -/
structure PyFraction where
  num : Int
  den : Int
  deriving DecidableEq, Repr

/-- Normalise a numerator/denominator pair the way `Fraction.__new__` does:
reduce by the gcd and move the sign to the numerator. -/
def mkFraction (n d : Int) : PyFraction :=
  let g : Nat := natGcd n.natAbs d.natAbs
  if g == 0 then ⟨0, 1⟩
  else
    let n' := n / (g : Int)
    let d' := d / (g : Int)
    if d' < 0 then ⟨-n', -d'⟩ else ⟨n', d'⟩

/-- Parse an unsigned decimal-or-integer literal `"12"` / `"0.75"` into a
numerator and a power-of-ten denominator. -/
def parseDecimal (cs : List Char) : Option (Nat × Nat) :=
  match splitFuel ['.'] (cs.length + 1) cs [] with
  | [whole] => (parseDigits whole).map (fun n => (n, 1))
  | [whole, fracPart] =>
    match parseDigits whole, parseDigits fracPart with
    | some w, some f => some (w * 10 ^ fracPart.length + f, 10 ^ fracPart.length)
    | _, _ => none
  | _ => none

/-- Parse a signed decimal-or-integer literal. -/
def parseSignedDecimal (cs : List Char) : Option (Int × Nat) :=
  match cs with
  | '-' :: rest => (parseDecimal rest).map (fun (n, d) => (-(n : Int), d))
  | '+' :: rest => (parseDecimal rest).map (fun (n, d) => ((n : Int), d))
  | _ => (parseDecimal cs).map (fun (n, d) => ((n : Int), d))

/-- Python `fractions.Fraction(s)`: accepts `"3"`, `"-3"`, `"a/b"` and
decimal literals, normalising the result; `ValueError` otherwise and
`ZeroDivisionError` on a zero denominator. -/
def pyFraction (s : String) : Except String PyFraction :=
  match splitFuel ['/'] (s.data.length + 1) (stripSpaces s.data) [] with
  | [single] =>
    match parseSignedDecimal single with
    | some (n, d) => .ok (mkFraction n (d : Int))
    | none => .error "ValueError: invalid literal for Fraction"
  | [numPart, denPart] =>
    match parseSignedDecimal numPart, parseSignedDecimal denPart with
    | some (n, 1), some (d, 1) =>
      if d == 0 then .error "ZeroDivisionError"
      else .ok (mkFraction n d)
    | _, _ => .error "ValueError: invalid literal for Fraction"
  | _ => .error "ValueError: invalid literal for Fraction"

/-! ## Numbers carried by decoded types

`convert_type_str` produces `float` bounds while `_convert_type_declaration`
produces `fractions.Fraction` bounds.  Binary floating point is not modelled
(no claim observes float arithmetic or float equality); a float value is
represented by the literal the source parsed it from. -/

/-- A numeric bound as produced by the two type decoders: an exact
`Fraction`, or a binary `float` represented opaquely by its source literal
(its arithmetic is never observed by the reader). -/
inductive PyNum
  | frac (q : PyFraction)
  | float (lit : String)
  deriving DecidableEq, Repr

/-- Python `float(s)` validity: optional sign, digits with at most one dot,
or an infinity token.  The parsed binary value is kept opaque. -/
def pyFloat (s : String) : Except String PyNum :=
  let t := stripSpaces s.data
  if t == "inf".data || t == "-inf".data then .ok (.float (List.asString t))
  else
    match parseSignedDecimal t with
    | some _ => .ok (.float (List.asString t))
    | none => .error "ValueError: could not convert string to float"

/-! ## Domain types

The decoded planning domain types (the external `type_manager` /
`shortcuts` constructors `BoolType`, `IntType`, `RealType`, `UserType`).
Modelled from the spec: a variant over Boolean, bounded Integer, bounded
Real and named user types with an optional parent (§3 of the spec). -/

/-- A decoded domain type. -/
inductive DomainType
  | bool
  | int (lower_bound upper_bound : Option Int)
  | real (lower_bound upper_bound : Option PyNum)
  | user (name : String) (parent : Option DomainType)
  deriving Repr

/-- `convert_type_str(s, env)` (proto_reader.py lines 41-54): decodes the
type descriptor strings used for parameters and fluent signatures.  The
`env` argument only supplies the external type constructors and is not
modelled. -/
def convert_type_str (s : String) : Except String DomainType :=
  if s == "bool" then .ok .bool
  else if s == "int" then .ok (.int none none)
  else if s == "float" then .ok (.real none none)
  else if pyContains s "real" then do
    -- a = float(s.split("[")[1].split(",")[0])
    let chunkA ← pyIndex (pySplit s "[") 1
    let a ← pyFloat ((pySplit chunkA ",").getD 0 "")
    -- b = float(s.split(",")[1].split("]")[0])
    let chunkB ← pyIndex (pySplit s ",") 1
    let b ← pyFloat ((pySplit chunkB "]").getD 0 "")
    .ok (.real (some a) (some b))
  else .ok (.user s none)

/-- The wire `TypeDeclaration` message: a type name and a (possibly empty)
parent type name. -/
structure WTypeDeclaration where
  type_name : String
  parent_type : String
  deriving DecidableEq, Repr

/-- `_convert_type_declaration(msg)` (proto_reader.py lines 173-199).

The integer and real branches reproduce the source's `if`/`elif` chain
exactly: the upper bound is examined only when the lower bound token is
`"-inf"`.  The final branch reproduces `parent = None` followed by
`if parent != ""` — a comparison of the just-assigned `None` against the
empty string, which is always true in Python — so a parent
`UserType(msg.parent_type)` is attached unconditionally. -/
def convert_type_declaration (msg : WTypeDeclaration) : Except String DomainType :=
  if msg.type_name == "bool" then .ok .bool
  else if pyStartsWith msg.type_name "integer[" then do
    let inner ← pyIndex (pySplit msg.type_name "[") 1
    let tmp := pySplit ((pySplit inner "]").getD 0 "") ", "
    let t0 ← pyIndex tmp 0
    if t0 ≠ "-inf" then do
      let lb ← pyInt t0
      .ok (.int (some lb) none)
    else do
      let t1 ← pyIndex tmp 1
      if t1 ≠ "inf" then do
        let ub ← pyInt t1
        .ok (.int none (some ub))
      else .ok (.int none none)
  else if pyStartsWith msg.type_name "real[" then do
    let inner ← pyIndex (pySplit msg.type_name "[") 1
    let tmp := pySplit ((pySplit inner "]").getD 0 "") ", "
    let t0 ← pyIndex tmp 0
    if t0 ≠ "-inf" then do
      let lb ← pyFraction t0
      .ok (.real (some (.frac lb)) none)
    else do
      let t1 ← pyIndex tmp 1
      if t1 ≠ "inf" then do
        let ub ← pyFraction t1
        .ok (.real none (some (.frac ub)))
      else .ok (.real none none)
  else
    .ok (.user msg.type_name (some (.user msg.parent_type none)))

/-! ## Wire messages

The protobuf schema (`unified_planning_pb2`) is generated code outside
`src/`.  Modelled from the spec: the message shapes of §6 with the fields
the reader accesses.  A proto3 sub-message read without a `HasField` guard
yields a default instance, so such fields are plain fields here; fields the
reader guards with `HasField` (an action's `duration` and `cost`, an
effect's `condition`) are `Option`.  A oneof (`Atom.content`) is an
optional sum. -/

/-- Wire `Parameter`. -/
structure WParameter where
  name : String
  type : String
  deriving Repr

/-- Wire `Fluent`. -/
structure WFluent where
  name : String
  value_type : String
  parameters : List WParameter
  deriving Repr

/-- Wire `ObjectDeclaration`. -/
structure WObjectDeclaration where
  name : String
  type : String
  deriving Repr

/-- The populated member of an `Atom`'s `content` oneof.  The wire `real`
field is a binary double; its value is carried exactly (no claim observes
double rounding on literals). -/
inductive WAtomContent
  | symbol (s : String)
  | int (i : Int)
  | real (r : PyFraction)
  | boolean (b : Bool)
  deriving Repr

/-- Wire `Atom`: at most one `content` member populated
(`WhichOneof("content")` is `none` when none is). -/
structure WAtom where
  content : Option WAtomContent
  deriving Repr

/-- Proto access `msg.atom.symbol`: the default `""` unless the `symbol`
member of the oneof is set. -/
def WAtom.symbolField (a : WAtom) : String :=
  match a.content with
  | some (.symbol s) => s
  | _ => ""

/-- Wire `ExpressionKind` enum values the reader branches on; `other`
stands for any further enum value (the reader's final fall-through). -/
inductive WExpressionKind
  | CONSTANT
  | PARAMETER
  | FLUENT_SYMBOL
  | FUNCTION_SYMBOL
  | STATE_VARIABLE
  | FUNCTION_APPLICATION
  | other
  deriving Repr, DecidableEq

/-- Wire `Expression`: an atom, a list of sub-expressions (`msg.list`), a
kind tag and a declared type string. -/
inductive WExpression
  | mk (atom : WAtom) (lst : List WExpression) (kind : WExpressionKind) (type : String)
  deriving Repr

/-- The atom of a wire expression. -/
def WExpression.atom : WExpression → WAtom
  | .mk a _ _ _ => a

/-- The sub-expression list of a wire expression. -/
def WExpression.lst : WExpression → List WExpression
  | .mk _ l _ _ => l

/-- The kind tag of a wire expression. -/
def WExpression.kind : WExpression → WExpressionKind
  | .mk _ _ k _ => k

/-- The declared type string of a wire expression. -/
def WExpression.type : WExpression → String
  | .mk _ _ _ t => t

/-- Wire `Timepoint.TimepointKind` enum. -/
inductive WTimepointKind
  | GLOBAL_START
  | GLOBAL_END
  | START
  | END
  | other
  deriving Repr, DecidableEq

/-- Wire `Timepoint`. -/
structure WTimepoint where
  kind : WTimepointKind
  deriving Repr, DecidableEq

/-- Wire `Timing`: a (double-valued) delay and a timepoint. -/
structure WTiming where
  delay : PyFraction
  timepoint : WTimepoint
  deriving Repr, DecidableEq

/-- Wire `TimeInterval`. -/
structure WTimeInterval where
  lower : WTiming
  upper : WTiming
  is_left_open : Bool
  is_right_open : Bool
  deriving Repr, DecidableEq

/-- Wire `EffectExpression.EffectKind` enum. -/
inductive WEffectKind
  | ASSIGN
  | INCREASE
  | DECREASE
  | other
  deriving Repr, DecidableEq

/-- Wire `EffectExpression`. -/
structure WEffectExpression where
  kind : WEffectKind
  fluent : WExpression
  value : WExpression
  condition : Option WExpression
  deriving Repr

/-- A condition entry of a wire `Action` (`cond.cond` and `cond.span`). -/
structure WCondition where
  cond : WExpression
  span : WTimeInterval
  deriving Repr

/-- An effect entry of a wire `Action` (`eff.effect` and
`eff.occurence_time`). -/
structure WActionEffect where
  effect : WEffectExpression
  occurence_time : WTiming
  deriving Repr

/-- Wire `Action`.  Modelled from the spec: the `duration` sub-message is
decoded as a time interval (§4.7). -/
structure WAction where
  name : String
  parameters : List WParameter
  duration : Option WTimeInterval
  conditions : List WCondition
  effects : List WActionEffect
  cost : Option WExpression
  deriving Repr

/-- Wire `Assignment`. -/
structure WAssignment where
  fluent : WExpression
  value : WExpression
  deriving Repr

/-- Wire `Goal` (`msg.timing` is a plain sub-message: `is not None` is
always true). -/
structure WGoal where
  goal : WExpression
  timing : WTiming
  deriving Repr

/-- Wire `Problem`.  Modelled from the spec: the element type of
`timed_effects` is the effect-expression message (§3, §4.8). -/
structure WProblem where
  problem_name : String
  objects : List WObjectDeclaration
  fluents : List WFluent
  actions : List WAction
  timed_effects : List WEffectExpression
  initial_state : List WAssignment
  goals : List WGoal
  deriving Repr

/-- Wire `ActionInstance`: parameters are atoms. -/
structure WActionInstance where
  action_name : String
  parameters : List WAtom
  deriving Repr

/-- Wire `Plan`. -/
structure WPlan where
  actions : List WActionInstance
  deriving Repr

/-! ## Domain model

The `unified_planning.model` classes the reader instantiates live outside
`src/`.  Modelled from the spec (§3): plain records/variants built once by
their conversion step; the expression manager's `create_node` and helper
constructors store their arguments. -/

/-- `ActionParameter(name, type)`. -/
structure UPParameter where
  name : String
  type : DomainType
  deriving Repr

/-- `Fluent(name, value_type, signature)`: wire parameter names are
discarded, only positional types kept (§3). -/
structure UPFluent where
  name : String
  valueType : DomainType
  signature : List DomainType
  deriving Repr

/-- `Object(name, type)`. -/
structure UPObject where
  name : String
  type : DomainType
  deriving Repr

/-- The node-type constants imported from `unified_planning.model.operators`. -/
inductive NodeType
  | BOOL_CONSTANT
  | INT_CONSTANT
  | REAL_CONSTANT
  | FLUENT_EXP
  | OBJECT_EXP
  | PARAM_EXP
  deriving Repr, DecidableEq

mutual
/-- A payload stored in an expression node: a literal, a model entity, or —
because `_convert_expression` stores the already-converted atom (itself an
expression node) as `payload` — another node. -/
inductive Payload
  | pint (i : Int)
  | pfrac (q : PyFraction)
  | pbool (b : Bool)
  | pobj (o : UPObject)
  | pparam (pr : UPParameter)
  | pfluent (f : UPFluent)
  | pnode (e : FNode)
  deriving Repr

/-- An expression node as produced by
`expression_manager.create_node(node_type, args, payload)`.  Argument
entries can be `none`: `_convert_expression` can return `None` and such
results are put in `args` unfiltered. -/
inductive FNode
  | node (nt : NodeType) (args : List (Option FNode)) (payload : Option Payload)
  deriving Repr
end

/-- `expression_manager.Int(v)`.  Modelled from the spec: a typed integer
constant node. -/
def emInt (i : Int) : FNode := .node .INT_CONSTANT [] (some (.pint i))

/-- `expression_manager.Real(v)`. -/
def emReal (q : PyFraction) : FNode := .node .REAL_CONSTANT [] (some (.pfrac q))

/-- `expression_manager.Bool(v)`. -/
def emBool (b : Bool) : FNode := .node .BOOL_CONSTANT [] (some (.pbool b))

/-- `expression_manager.ParameterExp(param)`. -/
def emParameterExp (pr : UPParameter) : FNode := .node .PARAM_EXP [] (some (.pparam pr))

/-- A decoded `Timepoint` (`unified_planning.model.timing.Timepoint`). -/
inductive UPTimepointKind
  | GLOBAL_START
  | GLOBAL_END
  | START
  | END
  deriving Repr, DecidableEq

/-- A decoded timepoint value. -/
structure UPTimepoint where
  kind : UPTimepointKind
  deriving Repr, DecidableEq

/-- A decoded `Timing`.  `_convert_timepoint` has no fall-through branch
and returns `None` on an unknown kind, hence the `Option`. -/
structure UPTiming where
  delay : Int
  timepoint : Option UPTimepoint
  deriving Repr, DecidableEq

/-- A decoded `TimeInterval`. -/
structure UPInterval where
  lower : UPTiming
  upper : UPTiming
  is_left_open : Bool
  is_right_open : Bool
  deriving Repr, DecidableEq

/-- `unified_planning.model.effect.ASSIGN`.  Modelled from the repo's model
module: three distinct enumeration constants; `_convert_effect` initialises
its local `kind` to the integer `0`, which is this constant's value. -/
def ASSIGN : Nat := 0

/-- `unified_planning.model.effect.INCREASE`. -/
def INCREASE : Nat := 1

/-- `unified_planning.model.effect.DECREASE`. -/
def DECREASE : Nat := 2

/-- A decoded `Effect`: target fluent expression, value expression,
optional guard, kind.  The fluent/value slots hold whatever
`_convert_expression` produced, including `None`. -/
structure UPEffect where
  fluent : Option FNode
  value : Option FNode
  condition : Option (Option FNode)
  kind : Nat
  deriving Repr

/-- A rebuilt action.  `Instantaneous` and `Durative` actions are one
record here, discriminated by `durative`; fields only one variant owns stay
empty on the other (an instantaneous action has no timed conditions or
timed effects — attempting those setters raises `AttributeError`, which
`_convert_action` catches). -/
structure UPAction where
  name : String
  parameters : List (String × UPParameter)
  durative : Bool
  duration : Option UPInterval
  conditions : List (UPInterval × FNode)
  preconditions : List FNode
  timedEffects : List (UPTiming × FNode × FNode)
  effects : List (FNode × FNode)
  cost : Option (Option FNode)
  deriving Repr

/-- `action.parameter(name)`: `KeyError` (here `none`) when the action has
no such parameter. -/
def UPAction.parameter (a : UPAction) (n : String) : Option UPParameter :=
  (a.parameters.find? (fun kv => kv.1 == n)).map (·.2)

/-- The template `Problem` the reader resolves names against.  Modelled
from the spec: name-keyed object/fluent/action tables (§3). -/
structure UPProblem where
  objects : List UPObject
  fluents : List UPFluent
  actions : List UPAction
  deriving Repr

/-- `problem.object(name)` / the lookup behind `problem.has_object`. -/
def UPProblem.objectLookup (p : UPProblem) (n : String) : Option UPObject :=
  p.objects.find? (fun o => o.name == n)

/-- `problem.has_object(name)`. -/
def UPProblem.has_object (p : UPProblem) (n : String) : Bool :=
  (p.objectLookup n).isSome

/-- `problem.has_fluent(name)`. -/
def UPProblem.has_fluent (p : UPProblem) (n : String) : Bool :=
  (p.fluents.find? (fun f => f.name == n)).isSome

/-- `problem.fluent(name)`.  Modelled from the spec: failure to find the
symbol is a hard error (§4.3). -/
def UPProblem.fluentLookup (p : UPProblem) (n : String) : Except String UPFluent :=
  match p.fluents.find? (fun f => f.name == n) with
  | some f => .ok f
  | none => .error "UPValueError: fluent not found"

/-- `problem.action(name)`.  Modelled from the spec: the named action is
looked up in the problem's action table (§4.8), failure is a hard error. -/
def UPProblem.actionLookup (p : UPProblem) (n : String) : Except String UPAction :=
  match p.actions.find? (fun a => a.name == n) with
  | some a => .ok a
  | none => .error "UPValueError: action not found"

/-! ## Conversion handlers

One Lean function per `@handles` method of `ProtobufReader`.  The external
`Converter.convert` dispatcher resolves a message's handler and forwards the
context arguments (spec §4.1); each `self.convert(...)` call site below is
therefore modelled as a direct call of the dispatched handler.  The
`param_map` argument of `_convert_expression`/`_convert_effect` is accepted
and passed through recursively by the source but never read, so it is
omitted here.  The mutable `self.current_action` becomes the explicit
argument/state `ca : Option UPAction`; the source only ever observes it via
`is not None` and `.parameter(name)`, both functions of the action's
(immutable) parameter table. -/

/-- `_convert_parameter` (lines 60-66): an `ActionParameter` with the
decoded type. -/
def convert_parameter (m : WParameter) : Except String UPParameter := do
  let t ← convert_type_str m.type
  .ok ⟨m.name, t⟩

/-- `_convert_fluent` (lines 68-77): decode the value type and positional
signature types; parameter names are dropped. -/
def convert_fluent (m : WFluent) : Except String UPFluent := do
  let vt ← convert_type_str m.value_type
  let sig ← m.parameters.mapM (fun pr => convert_type_str pr.type)
  .ok ⟨m.name, vt, sig⟩

/-- `_convert_object` (lines 79-84): an `Object` of a fresh user type named
by the wire type string. -/
def convert_object (m : WObjectDeclaration) : UPObject :=
  ⟨m.name, .user m.type none⟩

/-- `_convert_timepoint` (lines 327-348): the four known kinds; any other
enum value falls off the end of the Python function, returning `None`. -/
def convert_timepoint (m : WTimepoint) : Option UPTimepoint :=
  match m.kind with
  | .GLOBAL_START => some ⟨.GLOBAL_START⟩
  | .GLOBAL_END => some ⟨.GLOBAL_END⟩
  | .START => some ⟨.START⟩
  | .END => some ⟨.END⟩
  | .other => none

/-- Python `int(x)` on a `Fraction`-valued delay: truncation toward zero. -/
def pyTruncInt (q : PyFraction) : Int := Int.tdiv q.num q.den

/-- `_convert_timing` (lines 321-325). -/
def convert_timing (m : WTiming) : UPTiming :=
  ⟨pyTruncInt m.delay, convert_timepoint m.timepoint⟩

/-- `_convert_timed_interval` (lines 312-319). -/
def convert_timed_interval (m : WTimeInterval) : UPInterval :=
  ⟨convert_timing m.lower, convert_timing m.upper, m.is_left_open, m.is_right_open⟩

/-- `_convert_atom` (lines 146-171).  Literal members become constant
nodes; a symbol resolves against the problem's object table first, then —
when a current action is active — that action's parameters (a `KeyError`
falls back to the fluent table), and otherwise the fluent table. -/
def convert_atom (p : UPProblem) (ca : Option UPAction) (m : WAtom) :
    Except String (Option Payload) :=
  match m.content with
  | none => .ok none
  | some (.int v) => .ok (some (.pnode (emInt v)))
  | some (.real v) => .ok (some (.pnode (emReal v)))
  | some (.boolean v) => .ok (some (.pnode (emBool v)))
  | some (.symbol v) =>
    match p.objectLookup v with
    | some o => .ok (some (.pobj o))
    | none =>
      match ca with
      | some act =>
        match act.parameter v with
        | some prm => .ok (some (.pnode (emParameterExp prm)))
        | none => (p.fluentLookup v).map (fun f => some (.pfluent f))
      | none => (p.fluentLookup v).map (fun f => some (.pfluent f))

mutual
/-- `_convert_expression` (lines 86-144): convert the atom payload and all
sub-expressions eagerly, then branch on the kind tag.  `FUNCTION_SYMBOL`
and `FUNCTION_APPLICATION` are unsupported and return `None` (as does the
final fall-through); a `FLUENT_SYMBOL` whose symbol is not a known fluent
fails the `assert`; `STATE_VARIABLE` re-converts the atom into an unused
local before building an `OBJECT_EXP` node with empty args. -/
def convert_expression (p : UPProblem) (ca : Option UPAction) :
    WExpression → Except String (Option FNode)
  | .mk atom lst kind ty => do
    let payload ← convert_atom p ca atom
    let args ← convertExprList p ca lst
    match kind with
    | .CONSTANT =>
      -- assert msg.atom is not None  (proto sub-message access: always true)
      if ty == "bool" then .ok (some (.node .BOOL_CONSTANT args payload))
      else if ty == "int" then .ok (some (.node .INT_CONSTANT args payload))
      else if ty == "real" then .ok (some (.node .REAL_CONSTANT args payload))
      else .ok none
    | .PARAMETER =>
      .ok (some (.node .PARAM_EXP args
        (some (.pparam ⟨atom.symbolField, .user ty none⟩))))
    | .FLUENT_SYMBOL =>
      if p.has_fluent atom.symbolField then
        .ok (some (.node .FLUENT_EXP args payload))
      else .error "AssertionError: problem.has_fluent(msg.atom.symbol)"
    | .FUNCTION_SYMBOL => .ok none
    | .STATE_VARIABLE => do
      let _atom2 ← convert_atom p ca atom
      .ok (some (.node .OBJECT_EXP [] payload))
    | .FUNCTION_APPLICATION => .ok none
    | .other => .ok none

/-- The eager conversion of `msg.list` performed by `_convert_expression`. -/
def convertExprList (p : UPProblem) (ca : Option UPAction) :
    List WExpression → Except String (List (Option FNode))
  | [] => .ok []
  | e :: es => do
    let v ← convert_expression p ca e
    let vs ← convertExprList p ca es
    .ok (v :: vs)
end

/-- `_convert_effect` (lines 283-310): decode the kind enum (an
unrecognised value keeps the initial `kind = 0`, which is `ASSIGN`'s
value), then build the `Effect` with or without the guard condition.
Modelled from the spec: the guardless constructor call yields an
unconditional effect (§4.6). -/
def convert_effect (p : UPProblem) (ca : Option UPAction) (m : WEffectExpression) :
    Except String UPEffect := do
  let kind : Nat :=
    match m.kind with
    | .ASSIGN => ASSIGN
    | .INCREASE => INCREASE
    | .DECREASE => DECREASE
    | .other => 0
  match m.condition with
  | some c => do
    let f ← convert_expression p ca m.fluent
    let v ← convert_expression p ca m.value
    let cond ← convert_expression p ca c
    .ok ⟨f, v, some cond, kind⟩
  | none => do
    let f ← convert_expression p ca m.fluent
    let v ← convert_expression p ca m.value
    .ok ⟨f, v, none, kind⟩

/-- `_convert_initial_state` (lines 224-226): the `(fluent, value)` pair. -/
def convert_initial_state (p : UPProblem) (ca : Option UPAction) (m : WAssignment) :
    Except String (Option FNode × Option FNode) := do
  let f ← convert_expression p ca m.fluent
  let v ← convert_expression p ca m.value
  .ok (f, v)

/-- `_convert_goal` (lines 228-236): convert the goal expression; the
timing sub-message (never `None` on proto access) is converted and
discarded. -/
def convert_goal (p : UPProblem) (ca : Option UPAction) (m : WGoal) :
    Except String (Option FNode) := do
  let goal ← convert_expression p ca m.goal
  let _timing := convert_timing m.timing
  .ok goal

/-! ## Action conversion

`_convert_action` (lines 238-281) is split into named stages so the proofs
can follow its straight-line structure.  Mutation of `self.current_action`
and of the action object under construction is threaded explicitly: each
loop returns both its `Except` outcome and the action as built so far (in
Python an exception leaves the partially mutated object in
`self.current_action`).  The current-action object handed to sub-message
conversions is observed only through its immutable parameter table, so the
parameter-complete skeleton `mkAction` is passed in its place. -/

/-- `parameters[param.name] = ...` on an `OrderedDict`: an existing key
keeps its position and gets the new value, a new key is appended. -/
def odInsert (l : List (String × UPParameter)) (k : String) (v : UPParameter) :
    List (String × UPParameter) :=
  if l.any (fun kv => kv.1 == k) then
    l.map (fun kv => if kv.1 == k then (k, v) else kv)
  else l ++ [(k, v)]

/-- The parameter loop of `_convert_action` (lines 246-247). -/
def convertParams : List WParameter → List (String × UPParameter) →
    Except String (List (String × UPParameter))
  | [], acc => .ok acc
  | w :: ws, acc => do
    let pr ← convert_parameter w
    convertParams ws (odInsert acc w.name pr)

/-- The action object right after the `DurativeAction`/`InstantaneousAction`
constructor and (for the durative case) `set_duration_constraint` (lines
249-253): name, parameters and duration set, every accumulating field still
empty. -/
def mkAction (m : WAction) (params : List (String × UPParameter)) : UPAction :=
  match m.duration with
  | some d =>
    { name := m.name, parameters := params, durative := true,
      duration := some (convert_timed_interval d), conditions := [],
      preconditions := [], timedEffects := [], effects := [], cost := none }
  | none =>
    { name := m.name, parameters := params, durative := false,
      duration := none, conditions := [], preconditions := [],
      timedEffects := [], effects := [], cost := none }

/-- The condition loop of `_convert_action` (lines 256-263): skip a `None`
expression; otherwise `add_condition(span, exp)` on a durative action, and
on an instantaneous action the missing attribute raises `AttributeError`
(before the span is converted) and `add_precondition(exp)` runs instead.
Returns the outcome together with the action as mutated so far. -/
def addConditions (p : UPProblem) (ca0 : UPAction) :
    List WCondition → UPAction → (Except String UPAction) × UPAction
  | [], act => (.ok act, act)
  | c :: rest, act =>
    match convert_expression p (some ca0) c.cond with
    | .error e => (.error e, act)
    | .ok none => addConditions p ca0 rest act
    | .ok (some exp) =>
      let act' :=
        if act.durative then
          { act with conditions := act.conditions ++ [(convert_timed_interval c.span, exp)] }
        else
          { act with preconditions := act.preconditions ++ [exp] }
      addConditions p ca0 rest act'

/-- The effect loop of `_convert_action` (lines 265-276): convert the
effect; when its fluent or its value is `None` skip it (`continue`);
otherwise attach it as a timed effect on a durative action
(`add_timed_effect` with the converted occurrence time) or, the attribute
missing on an instantaneous action, as a plain effect. -/
def addEffects (p : UPProblem) (ca0 : UPAction) :
    List WActionEffect → UPAction → (Except String UPAction) × UPAction
  | [], act => (.ok act, act)
  | e :: rest, act =>
    match convert_effect p (some ca0) e.effect with
    | .error err => (.error err, act)
    | .ok exp =>
      match exp.fluent, exp.value with
      | some f, some v =>
        let act' :=
          if act.durative then
            { act with timedEffects :=
                act.timedEffects ++ [(convert_timing e.occurence_time, f, v)] }
          else
            { act with effects := act.effects ++ [(f, v)] }
        addEffects p ca0 rest act'
      | _, _ => addEffects p ca0 rest act

/-- `_convert_action` after its parameter loop: build the skeleton, set
`self.current_action = action`, run the condition and effect loops, attach
the cost if present.  The second component is the resulting
`self.current_action` (always set from this point on). -/
def convert_action_core (p : UPProblem) (m : WAction)
    (params : List (String × UPParameter)) :
    (Except String UPAction) × Option UPAction :=
  let act0 := mkAction m params
  match addConditions p act0 m.conditions act0 with
  | (.error e, actP) => (.error e, some actP)
  | (.ok act1, _) =>
    match addEffects p act0 m.effects act1 with
    | (.error e, actP) => (.error e, some actP)
    | (.ok act2, _) =>
      match m.cost with
      | none => (.ok act2, some act2)
      | some cexp =>
        match convert_expression p (some act0) cexp with
        | .error e => (.error e, some act2)
        | .ok cv =>
          let act3 := { act2 with cost := some cv }
          (.ok act3, some act3)

/-- `_convert_action` (lines 238-281).  `caIn` is `self.current_action` on
entry; a failure in the parameter loop happens before the
`self.current_action = action` assignment, leaving the incoming scope in
place.  Note that nothing clears the scope before returning. -/
def convert_action (p : UPProblem) (m : WAction) (caIn : Option UPAction) :
    (Except String UPAction) × Option UPAction :=
  match convertParams m.parameters [] with
  | .error e => (.error e, caIn)
  | .ok params => convert_action_core p m params

/-! ## Problem and plan conversion -/

/-- The action loop of `_convert_problem` (lines 208-209), threading
`self.current_action` through each `_convert_action` call. -/
def convertActions (p : UPProblem) :
    List WAction → Option UPAction → List UPAction →
    (Except String (List UPAction)) × Option UPAction
  | [], ca, acc => (.ok acc, ca)
  | a :: rest, ca, acc =>
    match convert_action p a ca with
    | (.error e, ca') => (.error e, ca')
    | (.ok act, ca') => convertActions p rest ca' (acc ++ [act])

/-- The rebuilt `Problem` (the fresh `PROBLEM` object of
`_convert_problem`), accumulating each `add_*` call in order. -/
structure UPProblemOut where
  name : String
  objects : List UPObject
  fluents : List UPFluent
  actions : List UPAction
  timedEffects : List UPEffect
  initialValues : List (Option FNode × Option FNode)
  goals : List (Option FNode)
  deriving Repr

/-- `_convert_problem` (lines 201-222): build a fresh problem and fold in
objects, fluents, actions, timed effects, initial-state assignments and
goals, in that order.  All name resolution goes through the template
problem `p`, not the problem under construction.  The timed-effect,
initial-state and goal conversions run after the action loop, under
whatever `self.current_action` that loop left behind. -/
def convert_problem (p : UPProblem) (m : WProblem) (caIn : Option UPAction) :
    (Except String UPProblemOut) × Option UPAction :=
  let objs := m.objects.map convert_object
  match m.fluents.mapM convert_fluent with
  | .error e => (.error e, caIn)
  | .ok fls =>
    match convertActions p m.actions caIn [] with
    | (.error e, ca') => (.error e, ca')
    | (.ok acts, ca') =>
      match m.timed_effects.mapM (convert_effect p ca') with
      | .error e => (.error e, ca')
      | .ok teffs =>
        match m.initial_state.mapM (convert_initial_state p ca') with
        | .error e => (.error e, ca')
        | .ok inits =>
          match m.goals.mapM (convert_goal p ca') with
          | .error e => (.error e, ca')
          | .ok goals =>
            (.ok ⟨m.problem_name, objs, fls, acts, teffs, inits, goals⟩, ca')

/-- A rebuilt `ActionInstance`. -/
structure UPActionInstance where
  action : UPAction
  parameters : List FNode
  deriving Repr

/-- A rebuilt `SequentialPlan`. -/
structure UPPlan where
  actions : List UPActionInstance
  deriving Repr

/-- `_convert_action_instance` (lines 356-374): each wire parameter must be
a symbol atom (`assert param.HasField("symbol")`) naming a known object
(`assert problem.has_object(...)`); it becomes an `OBJECT_EXP` node.  The
named action is looked up in the template problem. -/
def convert_action_instance (p : UPProblem) (m : WActionInstance) :
    Except String UPActionInstance := do
  let prms ← m.parameters.mapM (fun wa =>
    match wa.content with
    | some (.symbol s) =>
      match p.objectLookup s with
      | some o => .ok (FNode.node .OBJECT_EXP [] (some (.pobj o)))
      | none => .error "AssertionError: problem.has_object(param.symbol)"
    | _ => (.error "AssertionError: param.HasField" : Except String FNode))
  let act ← p.actionLookup m.action_name
  .ok ⟨act, prms⟩

/-- `_convert_plan` (lines 350-354). -/
def convert_plan (p : UPProblem) (m : WPlan) : Except String UPPlan := do
  let insts ← m.actions.mapM (convert_action_instance p)
  .ok ⟨insts⟩

/-! ## Top-level dispatch

The `Converter.convert` entry point, as one sum over every wire-message
kind the reader registers a handler for, threading the converter's mutable
`current_action` in and out. -/

/-- A wire message of any handled kind. -/
inductive WireMsg
  | parameter (m : WParameter)
  | fluent (m : WFluent)
  | objectDecl (m : WObjectDeclaration)
  | expression (m : WExpression)
  | atom (m : WAtom)
  | typeDecl (m : WTypeDeclaration)
  | problem (m : WProblem)
  | assignment (m : WAssignment)
  | goal (m : WGoal)
  | action (m : WAction)
  | effectExp (m : WEffectExpression)
  | timeInterval (m : WTimeInterval)
  | timing (m : WTiming)
  | timepoint (m : WTimepoint)
  | plan (m : WPlan)
  | actionInstance (m : WActionInstance)
  deriving Repr

/-- The result of a dispatched conversion, one variant per handler. -/
inductive ConvOut
  | param (v : UPParameter)
  | fluent (v : UPFluent)
  | obj (v : UPObject)
  | expr (v : Option FNode)
  | atomVal (v : Option Payload)
  | type (v : DomainType)
  | problem (v : UPProblemOut)
  | assign (v : Option FNode × Option FNode)
  | goalOut (v : Option FNode)
  | action (v : UPAction)
  | effect (v : UPEffect)
  | interval (v : UPInterval)
  | timing (v : UPTiming)
  | timepoint (v : Option UPTimepoint)
  | plan (v : UPPlan)
  | actionInst (v : UPActionInstance)
  deriving Repr

/-- `ProtobufReader.convert` on one converter instance: dispatch on the
message kind, returning the handler's outcome and the converter's
`current_action` afterwards.  Only `_convert_action` (directly or through
`_convert_problem`'s action loop) assigns it; every other handler leaves
the state untouched. -/
def convertMsg (p : UPProblem) (m : WireMsg) (s : Option UPAction) :
    (Except String ConvOut) × Option UPAction :=
  match m with
  | .parameter w => ((convert_parameter w).map .param, s)
  | .fluent w => ((convert_fluent w).map .fluent, s)
  | .objectDecl w => (.ok (.obj (convert_object w)), s)
  | .expression w => ((convert_expression p s w).map .expr, s)
  | .atom w => ((convert_atom p s w).map .atomVal, s)
  | .typeDecl w => ((convert_type_declaration w).map .type, s)
  | .problem w =>
    match convert_problem p w s with
    | (r, s') => (r.map .problem, s')
  | .assignment w => ((convert_initial_state p s w).map .assign, s)
  | .goal w => ((convert_goal p s w).map .goalOut, s)
  | .action w =>
    match convert_action p w s with
    | (r, s') => (r.map .action, s')
  | .effectExp w => ((convert_effect p s w).map .effect, s)
  | .timeInterval w => (.ok (.interval (convert_timed_interval w)), s)
  | .timing w => (.ok (.timing (convert_timing w)), s)
  | .timepoint w => (.ok (.timepoint (convert_timepoint w)), s)
  | .plan w => ((convert_plan p w).map .plan, s)
  | .actionInstance w => ((convert_action_instance p w).map .actionInst, s)

/-! ## Spec-side reference definitions

Definitions written from the spec's words, for comparison against the
embedded source. -/

/-- Spec §4.3 atom resolution for a symbol, as the spec words it: first the
object table, then — when a current action scope is active — that action's
parameters, then the fluent table, first match winning, a missing fluent
being a hard error. -/
def resolve_atom_spec (p : UPProblem) (ca : Option UPAction) (v : String) :
    Except String Payload :=
  match p.objectLookup v with
  | some o => .ok (.pobj o)
  | none =>
    match ca with
    | some act =>
      match act.parameter v with
      | some prm => .ok (.pnode (emParameterExp prm))
      | none => (p.fluentLookup v).map .pfluent
    | none => (p.fluentLookup v).map .pfluent

/-- The plain effects an instantaneous action should end up with according
to the drop policy: one entry per effect sub-message whose converted fluent
and value are both present. -/
def instKept (p : UPProblem) (ca0 : UPAction) (effs : List WActionEffect) :
    List (FNode × FNode) :=
  effs.filterMap (fun e =>
    match convert_effect p (some ca0) e.effect with
    | .ok eff =>
      match eff.fluent, eff.value with
      | some f, some v => some (f, v)
      | _, _ => none
    | .error _ => none)

/-- The timed effects a durative action should end up with under the same
drop policy. -/
def timedKept (p : UPProblem) (ca0 : UPAction) (effs : List WActionEffect) :
    List (UPTiming × FNode × FNode) :=
  effs.filterMap (fun e =>
    match convert_effect p (some ca0) e.effect with
    | .ok eff =>
      match eff.fluent, eff.value with
      | some f, some v => some (convert_timing e.occurence_time, f, v)
      | _, _ => none
    | .error _ => none)

/-! ## Concrete fixtures

Small concrete problems and messages used by witnesses and
counterexamples. -/

/-- A boolean fluent named `p`. -/
def exFluentP : UPFluent := ⟨"p", .bool, []⟩

/-- A problem owning only the fluent `p` (no objects, no actions). -/
def exProblemP : UPProblem := ⟨[], [exFluentP], []⟩

/-- An action wire message named `a` with one parameter also named `p`, no
duration, and no sub-messages. -/
def exActionMsg : WAction := ⟨"a", [⟨"p", "bool"⟩], none, [], [], none⟩

/-- The action `_convert_action` builds from `exActionMsg`. -/
def exActionA : UPAction :=
  { name := "a", parameters := [("p", ⟨"p", .bool⟩)], durative := false,
    duration := none, conditions := [], preconditions := [],
    timedEffects := [], effects := [], cost := none }

/-- A symbol atom for `p`. -/
def exSymP : WAtom := ⟨some (.symbol "p")⟩

/-- An object named `x`. -/
def exObjX : UPObject := ⟨"x", .user "t" none⟩

/-- An action parameter also named `x`. -/
def exParamX : UPParameter := ⟨"x", .bool⟩

/-- An action whose parameter table contains `x`. -/
def exActionX : UPAction :=
  { name := "b", parameters := [("x", exParamX)], durative := false,
    duration := none, conditions := [], preconditions := [],
    timedEffects := [], effects := [], cost := none }

/-- A problem owning the object `x`. -/
def exProblemX : UPProblem := ⟨[exObjX], [], []⟩

/-- A problem owning nothing at all. -/
def exEmptyProblem : UPProblem := ⟨[], [], []⟩

/-- A wire `true` constant expression. -/
def exExprTrue : WExpression := .mk ⟨some (.boolean true)⟩ [] .CONSTANT "bool"

/-- A wire fluent-symbol expression for `p`. -/
def exExprFluentP : WExpression := .mk ⟨some (.symbol "p")⟩ [] .FLUENT_SYMBOL "bool"

/-- A wire constant expression with an unhandled declared type: its
conversion falls through all `CONSTANT` sub-branches and yields `None`. -/
def exExprNone : WExpression := .mk ⟨some (.boolean true)⟩ [] .CONSTANT "weird"

/-- A default wire timing. -/
def exTiming : WTiming := ⟨⟨0, 1⟩, ⟨.GLOBAL_START⟩⟩

/-- An effect sub-message whose fluent and value both resolve. -/
def exEffGood : WActionEffect := ⟨⟨.ASSIGN, exExprFluentP, exExprTrue, none⟩, exTiming⟩

/-- An effect sub-message whose value converts to `None`. -/
def exEffBad : WActionEffect := ⟨⟨.ASSIGN, exExprFluentP, exExprNone, none⟩, exTiming⟩

/-- An instantaneous action message carrying one droppable and one keepable
effect. -/
def exActionMsgE : WAction := ⟨"e", [], none, [], [exEffBad, exEffGood], none⟩

/-- A wire time interval with default timings. -/
def exInterval : WTimeInterval := ⟨exTiming, exTiming, false, false⟩

/-- A durative action message: duration present, nothing else. -/
def exActionMsgD : WAction := ⟨"d", [], some exInterval, [], [], none⟩

/-- The durative action `_convert_action` builds from `exActionMsgD`. -/
def exActionD : UPAction :=
  { name := "d", parameters := [], durative := true,
    duration := some ⟨⟨0, some ⟨.GLOBAL_START⟩⟩, ⟨0, some ⟨.GLOBAL_START⟩⟩, false, false⟩,
    conditions := [], preconditions := [], timedEffects := [], effects := [],
    cost := none }

/-- The instantaneous action `_convert_action` builds from `exActionMsgE`:
the droppable effect is gone, the resolvable one is attached. -/
def exActionE : UPAction :=
  { name := "e", parameters := [], durative := false, duration := none,
    conditions := [], preconditions := [], timedEffects := [],
    effects := [(.node .FLUENT_EXP [] (some (.pfluent exFluentP)),
                 .node .BOOL_CONSTANT [] (some (.pnode (emBool true))))],
    cost := none }

/-! ## Theorems -/

/-- C1: decoding the descriptor `integer[1, 10]` — both bounds finite —
yields an Integer type whose lower bound is `1` but whose upper bound is
absent, because the source's `elif` examines the upper token only when the
lower token was `-inf`.  The claim that both finite bounds are preserved
simultaneously therefore fails at this input. -/
theorem convert_type_declaration_drops_finite_upper_bound :
    convert_type_declaration ⟨"integer[1, 10]", ""⟩ = .ok (.int (some 1) none) := rfl

/-- C6: decoding the descriptor `vehicle` with no declared parent (the
proto default empty string) still attaches a parent — the user type named
by the empty string — because the source compares the just-assigned `None`
against `""` instead of testing `msg.parent_type`.  The claim that a parent
is attached only when one is declared fails at this input. -/
theorem convert_type_declaration_always_attaches_parent :
    convert_type_declaration ⟨"vehicle", ""⟩
      = .ok (.user "vehicle" (some (.user "" none))) := rfl

/-- C7: decoding the descriptor `real[1/2, 3/4]` — both bounds finite —
parses the lower bound as the exact rational `1/2` but leaves the upper
bound absent, by the same `elif` slip as in the integer branch.  The claim
that both bounds come back as the exact rationals fails at this input. -/
theorem convert_type_declaration_drops_finite_real_upper_bound :
    convert_type_declaration ⟨"real[1/2, 3/4]", ""⟩
      = .ok (.real (some (.frac ⟨1, 2⟩)) none) := rfl

/-- C2 counterexample: after converting `exActionMsg` the converter's
current-action scope still holds the very action whose scope was set during
that conversion (it is not cleared), and a subsequent atom conversion on
the same converter resolves the symbol `p` as that stale action's
parameter, where a cleared scope would resolve it as the problem's fluent
`p`.  The scope therefore does remain in effect for subsequent
conversions. -/
theorem convert_action_scope_leaks :
    (convert_action exProblemP exActionMsg none).2 = some exActionA ∧
    convert_atom exProblemP (convert_action exProblemP exActionMsg none).2 exSymP
      = .ok (some (.pnode (emParameterExp ⟨"p", .bool⟩))) ∧
    convert_atom exProblemP none exSymP = .ok (some (.pfluent exFluentP)) :=
  ⟨rfl, rfl, rfl⟩

/-- C8 counterexample: an expression of kind `FUNCTION_SYMBOL` whose atom
symbol resolves to nothing raises during the eager payload conversion (the
fluent lookup is a hard error) instead of returning the unsupported `None`
result. -/
theorem convert_expression_function_symbol_can_raise :
    convert_expression exEmptyProblem none (.mk ⟨some (.symbol "g")⟩ [] .FUNCTION_SYMBOL "")
      = .error "UPValueError: fluent not found" := rfl

/-- C8 amended: an expression of kind `FUNCTION_SYMBOL` or
`FUNCTION_APPLICATION` converts to the unsupported `None` result without
raising, provided the eager conversions of its atom payload and of its
sub-expression list themselves succeed. -/
theorem convert_expression_unsupported_kinds_return_none
    (p : UPProblem) (ca : Option UPAction) (atom : WAtom)
    (lst : List WExpression) (ty : String) (k : WExpressionKind)
    (hk : k = .FUNCTION_SYMBOL ∨ k = .FUNCTION_APPLICATION)
    (pl : Option Payload) (hp : convert_atom p ca atom = .ok pl)
    (args : List (Option FNode)) (ha : convertExprList p ca lst = .ok args) :
    convert_expression p ca (.mk atom lst k ty) = .ok none := by
  rcases hk with hk | hk <;> subst hk <;>
    (simp only [convert_expression, hp, ha]; rfl)

/-- C8 witness: a `FUNCTION_SYMBOL` expression over a boolean literal atom
converts to `.ok none`. -/
theorem convert_expression_unsupported_kinds_return_none_witness :
    convert_expression exEmptyProblem none
      (.mk ⟨some (.boolean true)⟩ [] .FUNCTION_SYMBOL "x") = .ok none :=
  convert_expression_unsupported_kinds_return_none exEmptyProblem none
    ⟨some (.boolean true)⟩ [] "x" .FUNCTION_SYMBOL (.inl rfl)
    (some (.pnode (emBool true))) rfl [] rfl

/-- C10: an atom with no populated content field converts to `None`
without raising, and that `None` is stored as the payload of an enclosing
`CONSTANT` node of each scalar type (and of a `STATE_VARIABLE` node),
provided the sub-expression list converts. -/
theorem convert_atom_empty_returns_none
    (p : UPProblem) (ca : Option UPAction) (lst : List WExpression)
    (args : List (Option FNode)) (ty : String)
    (ha : convertExprList p ca lst = .ok args) :
    convert_atom p ca ⟨none⟩ = .ok none ∧
    convert_expression p ca (.mk ⟨none⟩ lst .CONSTANT "bool")
      = .ok (some (.node .BOOL_CONSTANT args none)) ∧
    convert_expression p ca (.mk ⟨none⟩ lst .CONSTANT "int")
      = .ok (some (.node .INT_CONSTANT args none)) ∧
    convert_expression p ca (.mk ⟨none⟩ lst .CONSTANT "real")
      = .ok (some (.node .REAL_CONSTANT args none)) ∧
    convert_expression p ca (.mk ⟨none⟩ lst .STATE_VARIABLE ty)
      = .ok (some (.node .OBJECT_EXP [] none)) := by
  refine ⟨rfl, ?_, ?_, ?_, ?_⟩ <;>
    (simp only [convert_expression, convert_atom, ha]; rfl)

/-- Fields of the action are untouched by the condition loop except the
two condition lists. -/
theorem addConditions_fields (p : UPProblem) (ca0 : UPAction)
    (cs : List WCondition) :
    ∀ (act a : UPAction), (addConditions p ca0 cs act).1 = .ok a →
      a.name = act.name ∧ a.parameters = act.parameters ∧
      a.durative = act.durative ∧ a.duration = act.duration ∧
      a.effects = act.effects ∧ a.timedEffects = act.timedEffects ∧
      a.cost = act.cost := by
  induction cs with
  | nil =>
    intro act a h
    simp only [addConditions] at h
    injection h with h
    subst h
    exact ⟨rfl, rfl, rfl, rfl, rfl, rfl, rfl⟩
  | cons c rest ih =>
    intro act a h
    simp only [addConditions] at h
    cases hce : convert_expression p (some ca0) c.cond with
    | error e => rw [hce] at h; exact absurd h (by simp)
    | ok o =>
      rw [hce] at h
      cases o with
      | none => exact ih act a h
      | some exp =>
        cases hd : act.durative with
        | true =>
          rw [hd] at h
          simp only [if_true] at h
          obtain ⟨h1, h2, h3, h4, h5, h6, h7⟩ := ih _ a h
          exact ⟨h1, h2, h3, h4, h5, h6, h7⟩
        | false =>
          rw [hd] at h
          simp only [Bool.false_eq_true, if_false] at h
          obtain ⟨h1, h2, h3, h4, h5, h6, h7⟩ := ih _ a h
          exact ⟨h1, h2, h3, h4, h5, h6, h7⟩

/-- The effect loop leaves every field but the two effect lists untouched
and appends, in order, exactly the converted effects whose fluent and
value are both present. -/
theorem addEffects_spec (p : UPProblem) (ca0 : UPAction)
    (es : List WActionEffect) :
    ∀ (act a : UPAction), (addEffects p ca0 es act).1 = .ok a →
      a.name = act.name ∧ a.parameters = act.parameters ∧
      a.durative = act.durative ∧ a.duration = act.duration ∧
      a.conditions = act.conditions ∧ a.preconditions = act.preconditions ∧
      a.cost = act.cost ∧
      (act.durative = false →
        a.effects = act.effects ++ instKept p ca0 es ∧
        a.timedEffects = act.timedEffects) ∧
      (act.durative = true →
        a.timedEffects = act.timedEffects ++ timedKept p ca0 es ∧
        a.effects = act.effects) := by
  induction es with
  | nil =>
    intro act a h
    simp only [addEffects] at h
    injection h with h
    subst h
    simp [instKept, timedKept]
  | cons e rest ih =>
    intro act a h
    cases hce : convert_effect p (some ca0) e.effect with
    | error err =>
      simp only [addEffects, hce] at h
      exact absurd h (by simp)
    | ok exp =>
      cases hf : exp.fluent with
      | none =>
        simp only [addEffects, hce, hf] at h
        obtain ⟨h1, h2, h3, h4, h5, h6, h7, h8, h9⟩ := ih act a h
        have hinst : instKept p ca0 (e :: rest) = instKept p ca0 rest := by
          simp only [instKept, List.filterMap_cons, hce, hf]
        have htimed : timedKept p ca0 (e :: rest) = timedKept p ca0 rest := by
          simp only [timedKept, List.filterMap_cons, hce, hf]
        exact ⟨h1, h2, h3, h4, h5, h6, h7,
          fun hd => by rw [hinst]; exact h8 hd,
          fun hd => by rw [htimed]; exact h9 hd⟩
      | some f =>
        cases hv : exp.value with
        | none =>
          simp only [addEffects, hce, hf, hv] at h
          obtain ⟨h1, h2, h3, h4, h5, h6, h7, h8, h9⟩ := ih act a h
          have hinst : instKept p ca0 (e :: rest) = instKept p ca0 rest := by
            simp only [instKept, List.filterMap_cons, hce, hf, hv]
          have htimed : timedKept p ca0 (e :: rest) = timedKept p ca0 rest := by
            simp only [timedKept, List.filterMap_cons, hce, hf, hv]
          exact ⟨h1, h2, h3, h4, h5, h6, h7,
            fun hd => by rw [hinst]; exact h8 hd,
            fun hd => by rw [htimed]; exact h9 hd⟩
        | some v =>
          cases hd : act.durative with
          | true =>
            simp only [addEffects, hce, hf, hv, hd, if_true] at h
            obtain ⟨h1, h2, h3, h4, h5, h6, h7, h8, h9⟩ := ih _ a h
            refine ⟨h1, h2, h3, h4, h5, h6, h7, ?_, ?_⟩
            · intro hcontra; exact absurd hcontra (by simp)
            · intro _
              obtain ⟨ht, he⟩ := h9 rfl
              refine ⟨?_, he⟩
              rw [ht]
              simp only [timedKept, List.filterMap_cons, hce, hf, hv,
                List.append_assoc, List.singleton_append]
          | false =>
            simp only [addEffects, hce, hf, hv, hd, Bool.false_eq_true, if_false] at h
            obtain ⟨h1, h2, h3, h4, h5, h6, h7, h8, h9⟩ := ih _ a h
            refine ⟨h1, h2, h3, h4, h5, h6, h7, ?_, ?_⟩
            · intro _
              obtain ⟨he, ht⟩ := h8 rfl
              refine ⟨?_, ht⟩
              rw [he]
              simp only [instKept, List.filterMap_cons, hce, hf, hv,
                List.append_assoc, List.singleton_append]
            · intro hcontra; exact absurd hcontra (by simp)

/-- Anatomy of a successful `_convert_action` call: the parameter loop
succeeded, both loops succeeded, the returned action carries the final
fields, and — the scope behaviour — `self.current_action` afterwards holds
exactly the returned action. -/
theorem convert_action_ok_shape (p : UPProblem) (m : WAction)
    (s : Option UPAction) (a : UPAction)
    (h : (convert_action p m s).1 = .ok a) :
    ∃ prms act1 act2,
      convertParams m.parameters [] = .ok prms ∧
      (addConditions p (mkAction m prms) m.conditions (mkAction m prms)).1 = .ok act1 ∧
      (addEffects p (mkAction m prms) m.effects act1).1 = .ok act2 ∧
      a.name = act2.name ∧ a.parameters = act2.parameters ∧
      a.durative = act2.durative ∧ a.duration = act2.duration ∧
      a.conditions = act2.conditions ∧ a.preconditions = act2.preconditions ∧
      a.effects = act2.effects ∧ a.timedEffects = act2.timedEffects ∧
      (convert_action p m s).2 = some a := by
  cases hp : convertParams m.parameters [] with
  | error e =>
    simp only [convert_action, hp] at h
    exact absurd h (by simp)
  | ok prms =>
    simp only [convert_action, hp] at h ⊢
    cases hc : addConditions p (mkAction m prms) m.conditions (mkAction m prms) with
    | mk r1 actP =>
      cases r1 with
      | error e =>
        simp only [convert_action_core, hc] at h
        exact absurd h (by simp)
      | ok act1 =>
        cases he : addEffects p (mkAction m prms) m.effects act1 with
        | mk r2 actQ =>
          cases r2 with
          | error e =>
            simp only [convert_action_core, hc, he] at h
            exact absurd h (by simp)
          | ok act2 =>
            cases hcost : m.cost with
            | none =>
              simp only [convert_action_core, hc, he, hcost] at h ⊢
              injection h with h
              subst h
              exact ⟨prms, act1, act2, rfl, by rw [hc], by rw [he], rfl, rfl,
                rfl, rfl, rfl, rfl, rfl, rfl, rfl⟩
            | some cexp =>
              cases hcv : convert_expression p (some (mkAction m prms)) cexp with
              | error e =>
                simp only [convert_action_core, hc, he, hcost, hcv] at h
                exact absurd h (by simp)
              | ok cv =>
                simp only [convert_action_core, hc, he, hcost, hcv] at h ⊢
                injection h with h
                subst h
                exact ⟨prms, act1, act2, rfl, by rw [hc], by rw [he], rfl, rfl,
                  rfl, rfl, rfl, rfl, rfl, rfl, rfl⟩

/-- C2 amended: nothing clears the current-action scope when
`_convert_action` returns — after a successful conversion the converter's
`current_action` holds exactly the returned action, and it is only ever
replaced when a later action conversion begins. -/
theorem convert_action_scope_persists (p : UPProblem) (m : WAction)
    (s : Option UPAction) (a : UPAction)
    (h : (convert_action p m s).1 = .ok a) :
    (convert_action p m s).2 = some a := by
  obtain ⟨_, _, _, _, _, _, _, _, _, _, _, _, _, _, hs⟩ :=
    convert_action_ok_shape p m s a h
  exact hs

/-- C2 amended witness: the concrete instantaneous action message. -/
theorem convert_action_scope_persists_witness :
    (convert_action exProblemP exActionMsg none).2 = some exActionA :=
  convert_action_scope_persists exProblemP exActionMsg none exActionA rfl

/-- C3: atom resolution for a symbol follows the precedence object first,
then active-action parameter, then fluent, first match winning (stated as
agreement with the spec-side resolver); and in particular a symbol naming
both a known object and a parameter of the active action resolves to the
object. -/
theorem convert_atom_resolution_precedence (p : UPProblem) (ca : Option UPAction)
    (v : String) :
    convert_atom p ca ⟨some (.symbol v)⟩ = (resolve_atom_spec p ca v).map some ∧
    (∀ act prm o, ca = some act → act.parameter v = some prm →
      p.objectLookup v = some o →
      convert_atom p ca ⟨some (.symbol v)⟩ = .ok (some (.pobj o))) := by
  constructor
  · cases ho : p.objectLookup v with
    | some o => simp only [convert_atom, resolve_atom_spec, ho]; rfl
    | none =>
      cases ca with
      | none =>
        simp only [convert_atom, resolve_atom_spec, ho]
        cases hf : p.fluentLookup v <;> rfl
      | some act =>
        cases hp : act.parameter v with
        | some prm => simp only [convert_atom, resolve_atom_spec, ho, hp]; rfl
        | none =>
          simp only [convert_atom, resolve_atom_spec, ho, hp]
          cases hf : p.fluentLookup v <;> rfl
  · rintro act prm o hca hprm hobj
    subst hca
    simp only [convert_atom, hobj]

/-- C3 witness: in a problem owning object `x`, with an active action that
also has a parameter `x`, the symbol `x` resolves to the object. -/
theorem convert_atom_resolution_precedence_witness :
    convert_atom exProblemX (some exActionX) ⟨some (.symbol "x")⟩
      = .ok (some (.pobj exObjX)) :=
  (convert_atom_resolution_precedence exProblemX (some exActionX) "x").2
    exActionX exParamX exObjX rfl rfl rfl

/-- C5: a successfully rebuilt action is durative exactly when the wire
message carries a duration sub-message, and then the decoded interval is
attached as its duration constraint. -/
theorem convert_action_durative_iff (p : UPProblem) (m : WAction)
    (s : Option UPAction) (a : UPAction)
    (h : (convert_action p m s).1 = .ok a) :
    (a.durative = true ↔ m.duration.isSome = true) ∧
    a.duration = m.duration.map convert_timed_interval := by
  obtain ⟨prms, act1, act2, _, hc, he, _, _, hdrv, hdur, _, _, _, _, _⟩ :=
    convert_action_ok_shape p m s a h
  obtain ⟨_, _, c3, c4, _, _, _⟩ :=
    addConditions_fields p (mkAction m prms) m.conditions (mkAction m prms) act1 hc
  obtain ⟨_, _, e3, e4, _, _, _, _, _⟩ :=
    addEffects_spec p (mkAction m prms) m.effects act1 act2 he
  have hmk1 : (mkAction m prms).durative = m.duration.isSome := by
    cases hd : m.duration <;> simp [mkAction, hd]
  have hmk2 : (mkAction m prms).duration = m.duration.map convert_timed_interval := by
    cases hd : m.duration <;> simp [mkAction, hd]
  constructor
  · rw [hdrv, e3, c3, hmk1]
  · rw [hdur, e4, c4, hmk2]

/-- C5 witness: the concrete duration-carrying message produces a durative
action with the decoded interval attached. -/
theorem convert_action_durative_iff_witness :
    (exActionD.durative = true ↔ exActionMsgD.duration.isSome = true) ∧
    exActionD.duration = exActionMsgD.duration.map convert_timed_interval :=
  convert_action_durative_iff exProblemP exActionMsgD none exActionD rfl

/-- C4: the effects of a successfully rebuilt action are exactly the
converted effect sub-messages whose fluent and value are both present (in
order, attached to the list matching the action's variant); an effect with
a missing fluent or value is dropped while the rest are still attached. -/
theorem convert_action_effects_kept (p : UPProblem) (m : WAction)
    (s : Option UPAction) (prms : List (String × UPParameter)) (a : UPAction)
    (hp : convertParams m.parameters [] = .ok prms)
    (h : (convert_action p m s).1 = .ok a) :
    (a.durative = false →
      a.effects = instKept p (mkAction m prms) m.effects ∧ a.timedEffects = []) ∧
    (a.durative = true →
      a.timedEffects = timedKept p (mkAction m prms) m.effects ∧ a.effects = []) := by
  obtain ⟨prms', act1, act2, hp', hc, he, _, _, hdrv, _, _, _, heff, htef, _⟩ :=
    convert_action_ok_shape p m s a h
  rw [hp] at hp'
  injection hp' with hp'
  subst hp'
  obtain ⟨_, _, c3, _, c5, c6, _⟩ :=
    addConditions_fields p (mkAction m prms) m.conditions (mkAction m prms) act1 hc
  obtain ⟨_, _, e3, _, _, _, _, e8, e9⟩ :=
    addEffects_spec p (mkAction m prms) m.effects act1 act2 he
  have hmkE : (mkAction m prms).effects = [] := by
    cases hd : m.duration <;> simp [mkAction, hd]
  have hmkT : (mkAction m prms).timedEffects = [] := by
    cases hd : m.duration <;> simp [mkAction, hd]
  constructor
  · intro hd
    have h1 : act1.durative = false := by rw [← e3, ← hdrv]; exact hd
    obtain ⟨hef, htf⟩ := e8 h1
    constructor
    · rw [heff, hef, c5, hmkE, List.nil_append]
    · rw [htef, htf, c6, hmkT]
  · intro hd
    have h1 : act1.durative = true := by rw [← e3, ← hdrv]; exact hd
    obtain ⟨htf, hef⟩ := e9 h1
    constructor
    · rw [htef, htf, c6, hmkT, List.nil_append]
    · rw [heff, hef, c5, hmkE]

/-- C4 witness: the message with one droppable and one keepable effect
produces an action carrying exactly the keepable one. -/
theorem convert_action_effects_kept_witness :
    (exActionE.durative = false →
      exActionE.effects = instKept exProblemP (mkAction exActionMsgE []) exActionMsgE.effects ∧
      exActionE.timedEffects = []) ∧
    (exActionE.durative = true →
      exActionE.timedEffects = timedKept exProblemP (mkAction exActionMsgE []) exActionMsgE.effects ∧
      exActionE.effects = []) :=
  convert_action_effects_kept exProblemP exActionMsgE none [] exActionE rfl rfl

/-- Rerunning `_convert_action` from the state it itself left behind
yields the identical outcome: the result never depends on the incoming
scope, and a parameter-stage failure leaves the state unchanged. -/
theorem convert_action_rerun (p : UPProblem) (m : WAction) (s : Option UPAction) :
    convert_action p m ((convert_action p m s).2) = convert_action p m s := by
  cases hp : convertParams m.parameters [] with
  | error e => simp [convert_action, hp]
  | ok prms => simp [convert_action, hp]

/-- Rerunning the action loop of `_convert_problem` from the state it left
behind yields the identical outcome. -/
theorem convertActions_rerun (p : UPProblem) (ws : List WAction)
    (s : Option UPAction) (acc : List UPAction) :
    convertActions p ws ((convertActions p ws s acc).2) acc
      = convertActions p ws s acc := by
  cases ws with
  | nil => rfl
  | cons a rest =>
    cases hp : convertParams a.parameters [] with
    | error e => simp [convertActions, convert_action, hp]
    | ok prms =>
      cases hc : convert_action_core p a prms with
      | mk r ca' =>
        cases r with
        | error e => simp [convertActions, convert_action, hp, hc]
        | ok act => simp [convertActions, convert_action, hp, hc]

/-- Rerunning `_convert_problem` from the state it left behind yields the
identical outcome. -/
theorem convert_problem_rerun (p : UPProblem) (w : WProblem) (s : Option UPAction) :
    convert_problem p w ((convert_problem p w s).2) = convert_problem p w s := by
  cases hf : w.fluents.mapM convert_fluent with
  | error e => simp only [convert_problem, hf]
  | ok fls =>
    cases hca : convertActions p w.actions s [] with
    | mk ra ca' =>
      have hre : convertActions p w.actions ca' [] = (ra, ca') := by
        have h2 := convertActions_rerun p w.actions s []
        rw [hca] at h2
        exact h2
      cases ra with
      | error e => simp only [convert_problem, hf, hca, hre]
      | ok acts =>
        cases ht : w.timed_effects.mapM (convert_effect p ca') with
        | error e => simp only [convert_problem, hf, hca, hre, ht]
        | ok teffs =>
          cases hi : w.initial_state.mapM (convert_initial_state p ca') with
          | error e => simp only [convert_problem, hf, hca, hre, ht, hi]
          | ok inits =>
            cases hg : w.goals.mapM (convert_goal p ca') with
            | error e => simp only [convert_problem, hf, hca, hre, ht, hi, hg]
            | ok goals => simp only [convert_problem, hf, hca, hre, ht, hi, hg]

/-- C9: converting the same wire message twice on the same converter,
against the same template problem, yields the same output both times — the
only mutable converter state (the retained current-action scope) never
makes the second conversion differ from the first, and there is no hidden
counter. -/
theorem convertMsg_idempotent (p : UPProblem) (m : WireMsg) (s : Option UPAction) :
    (convertMsg p m ((convertMsg p m s).2)).1 = (convertMsg p m s).1 := by
  cases m
  case action w =>
    show ((convert_action p w ((convert_action p w s).2)).1.map ConvOut.action)
        = ((convert_action p w s).1.map ConvOut.action)
    rw [convert_action_rerun]
  case problem w =>
    show ((convert_problem p w ((convert_problem p w s).2)).1.map ConvOut.problem)
        = ((convert_problem p w s).1.map ConvOut.problem)
    rw [convert_problem_rerun]
  all_goals rfl

/-- C10 witness: the empty atom inside concrete constant and
state-variable nodes. -/
theorem convert_atom_empty_returns_none_witness :
    convert_atom exEmptyProblem none ⟨none⟩ = .ok none ∧
    convert_expression exEmptyProblem none (.mk ⟨none⟩ [] .CONSTANT "bool")
      = .ok (some (.node .BOOL_CONSTANT [] none)) ∧
    convert_expression exEmptyProblem none (.mk ⟨none⟩ [] .CONSTANT "int")
      = .ok (some (.node .INT_CONSTANT [] none)) ∧
    convert_expression exEmptyProblem none (.mk ⟨none⟩ [] .CONSTANT "real")
      = .ok (some (.node .REAL_CONSTANT [] none)) ∧
    convert_expression exEmptyProblem none (.mk ⟨none⟩ [] .STATE_VARIABLE "t")
      = .ok (some (.node .OBJECT_EXP [] none)) :=
  convert_atom_empty_returns_none exEmptyProblem none [] [] "t" rfl

end ProtoReader
